import Mathlib

/-
Verification of the authorization cache core of the mainflux `things`
service (`things/service.go`), a two-tier read-through cache in front of
the thing and channel repositories.

The embedding models:
  * the two cache components (`ThingCache` keyed by bearer key,
    `ChannelCache` holding confirmed (channel, thing) memberships),
  * the external collaborators (users service, thing repository, channel
    repository) as response functions,
  * the read path (`CanAccess`, `Identify`, `hasThing`) with an explicit
    log of repository calls, and
  * the mutation paths that touch the caches (`Disconnect`, `RemoveThing`,
    `RemoveChannel`) with an explicit event trace capturing the order of
    cache invalidation versus repository mutation.
-/

namespace Things

/-- Error values of the `things` package. `unauthorizedAccess` models
`ErrUnauthorizedAccess`, `notFound` models `ErrNotFound`; `other n`
stands for any further failure an underlying dependency may return. -/
inductive Err where
  | unauthorizedAccess
  | notFound
  | malformedEntity
  | conflict
  | other (code : Nat)
  deriving DecidableEq, Repr

/-- The thing cache (`ThingCache` interface): bearer key to thing ID,
modelled as an association list in which the most recent binding wins. -/
structure ThingCache where
  entries : List (String × String)
  deriving DecidableEq, Repr

/-- Model of `thingCache.ID(key)`: pure lookup; `none` models the cache-miss error
returned by the cache backend. -/
def ThingCache.ID (c : ThingCache) (key : String) : Option String :=
  (c.entries.find? (fun p => p.1 == key)).map (fun p => p.2)

/-- Model of `thingCache.Save(key, id)`: idempotent upsert; the new binding shadows
any previous binding for the same key. -/
def ThingCache.Save (c : ThingCache) (key id : String) : ThingCache :=
  ⟨(key, id) :: c.entries⟩

/-- Model of `thingCache.Remove(id)`: drop every binding whose value is the given
thing ID (removal is keyed by thing identifier, not by bearer key). -/
def ThingCache.Remove (c : ThingCache) (id : String) : ThingCache :=
  ⟨c.entries.filter (fun p => p.2 != id)⟩

/-- The channel cache (`ChannelCache` interface): the set of
(channel ID, thing ID) pairs confirmed connected. -/
structure ChannelCache where
  connections : List (String × String)
  deriving DecidableEq, Repr

/-- Model of `channelCache.HasThing(chanID, thingID)`: pure membership test. -/
def ChannelCache.HasThing (c : ChannelCache) (chanID thingID : String) : Bool :=
  c.connections.contains (chanID, thingID)

/-- Model of `channelCache.Connect(chanID, thingID)`: mark the pair connected. -/
def ChannelCache.Connect (c : ChannelCache) (chanID thingID : String) : ChannelCache :=
  ⟨(chanID, thingID) :: c.connections⟩

/-- Model of `channelCache.Disconnect(chanID, thingID)`: erase the pair. -/
def ChannelCache.Disconnect (c : ChannelCache) (chanID thingID : String) : ChannelCache :=
  ⟨c.connections.filter (fun p => p != (chanID, thingID))⟩

/-- Model of `channelCache.Remove(chanID)`: erase every membership of the channel
(used on channel deletion). -/
def ChannelCache.Remove (c : ChannelCache) (chanID : String) : ChannelCache :=
  ⟨c.connections.filter (fun p => p.1 != chanID)⟩

/-- The external collaborators of `thingsService`, as response functions:
the users service and the two repositories. Mutating repository calls
return `none` on success and `some e` on failure, mirroring Go's error
return value. -/
structure Repos where
  usersIdentify : String → Except Err String
  thingsRetrieveByKey : String → Except Err String
  channelsHasThing : String → String → Except Err String
  channelsDisconnect : String → String → String → Option Err
  thingsRemove : String → String → Option Err
  channelsRemove : String → String → Option Err

/-- The mutable state owned by `thingsService`: its two caches. -/
structure ServiceState where
  thingCache : ThingCache
  channelCache : ChannelCache
  deriving DecidableEq, Repr

/-- Repository calls the read path can make, recorded per service call. -/
inductive RepoCall where
  | channelsHasThing (chanID key : String)
  | thingsRetrieveByKey (key : String)
  deriving DecidableEq, Repr

/-- Outcome of a read-path service call: the returned value or error, the
service state afterwards, and the repository calls made, in order. -/
structure ReadOutcome where
  result : Except Err String
  state : ServiceState
  calls : List RepoCall
  deriving Repr

/-- Model of `thingsService.hasThing`: the cache-only composite lookup. A
thing-cache miss propagates the cache backend's error; a negative
membership-cache answer yields `ErrUnauthorizedAccess`. -/
def hasThing (s : ServiceState) (chanID key : String) : Except Err String :=
  match s.thingCache.ID key with
  | none => Except.error Err.notFound
  | some thingID =>
    if s.channelCache.HasThing chanID thingID then Except.ok thingID
    else Except.error Err.unauthorizedAccess

/-- Model of `thingsService.CanAccess`: try the caches via `hasThing`; on any
non-positive cache outcome fall back to `channels.HasThing`, fail closed
with `ErrUnauthorizedAccess` on its error, and on success populate both
caches before returning the thing ID. -/
def CanAccess (r : Repos) (s : ServiceState) (chanID key : String) : ReadOutcome :=
  match hasThing s chanID key with
  | Except.ok thingID => ⟨Except.ok thingID, s, []⟩
  | Except.error _ =>
    match r.channelsHasThing chanID key with
    | Except.error _ =>
      ⟨Except.error Err.unauthorizedAccess, s, [RepoCall.channelsHasThing chanID key]⟩
    | Except.ok thingID =>
      ⟨Except.ok thingID,
        ⟨s.thingCache.Save key thingID, s.channelCache.Connect chanID thingID⟩,
        [RepoCall.channelsHasThing chanID key]⟩

/-- Model of `thingsService.Identify`: read-through resolution of a bearer key to a
thing ID: cache hit returns immediately; on a miss the thing repository is
queried, a repository error fails closed with `ErrUnauthorizedAccess`, and
a repository hit is written back into the thing cache. -/
def Identify (r : Repos) (s : ServiceState) (key : String) : ReadOutcome :=
  match s.thingCache.ID key with
  | some id => ⟨Except.ok id, s, []⟩
  | none =>
    match r.thingsRetrieveByKey key with
    | Except.error _ =>
      ⟨Except.error Err.unauthorizedAccess, s, [RepoCall.thingsRetrieveByKey key]⟩
    | Except.ok id =>
      ⟨Except.ok id, ⟨s.thingCache.Save key id, s.channelCache⟩,
        [RepoCall.thingsRetrieveByKey key]⟩

/-- Events on a mutation path, recorded in execution order. -/
inductive Event where
  | cacheDisconnect (chanID thingID : String)
  | repoDisconnect (owner chanID thingID : String)
  | thingCacheRemove (id : String)
  | repoRemoveThing (owner id : String)
  | channelCacheRemove (chanID : String)
  | repoRemoveChannel (owner chanID : String)
  deriving DecidableEq, Repr

/-- Outcome of a mutation-path service call: the Go error return (`none`
is success), the resulting state, and the event trace in order. -/
structure MutOutcome where
  result : Option Err
  state : ServiceState
  trace : List Event
  deriving Repr

/-- Model of `thingsService.Disconnect`: authenticate the operator token, then
remove the membership cache entry and call the channel repository's
disconnect, returning the repository's error value. -/
def Disconnect (r : Repos) (s : ServiceState) (token chanID thingID : String) : MutOutcome :=
  match r.usersIdentify token with
  | Except.error _ => ⟨some Err.unauthorizedAccess, s, []⟩
  | Except.ok owner =>
    ⟨r.channelsDisconnect owner chanID thingID,
      ⟨s.thingCache, s.channelCache.Disconnect chanID thingID⟩,
      [Event.cacheDisconnect chanID thingID, Event.repoDisconnect owner chanID thingID]⟩

/-- Model of `thingsService.RemoveThing`: authenticate the operator token, then
remove the thing's key-cache entry (by thing ID) and call the thing
repository's remove, returning the repository's error value. -/
def RemoveThing (r : Repos) (s : ServiceState) (token id : String) : MutOutcome :=
  match r.usersIdentify token with
  | Except.error _ => ⟨some Err.unauthorizedAccess, s, []⟩
  | Except.ok owner =>
    ⟨r.thingsRemove owner id,
      ⟨s.thingCache.Remove id, s.channelCache⟩,
      [Event.thingCacheRemove id, Event.repoRemoveThing owner id]⟩

/-- Model of `thingsService.RemoveChannel`: authenticate the operator token, then
remove all of the channel's membership cache entries and call the channel
repository's remove, returning the repository's error value. -/
def RemoveChannel (r : Repos) (s : ServiceState) (token id : String) : MutOutcome :=
  match r.usersIdentify token with
  | Except.error _ => ⟨some Err.unauthorizedAccess, s, []⟩
  | Except.ok owner =>
    ⟨r.channelsRemove owner id,
      ⟨s.thingCache, s.channelCache.Remove id⟩,
      [Event.channelCacheRemove id, Event.repoRemoveChannel owner id]⟩

/-- One data-plane read call. -/
inductive ReadOp where
  | identify (key : String)
  | canAccess (chanID key : String)
  deriving DecidableEq, Repr

/-- The service state after one read call. -/
def applyRead (r : Repos) (s : ServiceState) : ReadOp → ServiceState
  | ReadOp.identify k => (Identify r s k).state
  | ReadOp.canAccess c k => (CanAccess r s c k).state

/-- Run a sequence of read calls, threading the service state through. -/
def runReads (r : Repos) (s : ServiceState) : List ReadOp → ServiceState
  | [] => s
  | op :: ops => runReads r (applyRead r s op) ops

/-- The cold-start state: both caches empty. -/
def emptyState : ServiceState := ⟨⟨[]⟩, ⟨[]⟩⟩

/-- A collaborator set that is completely unreachable: every call fails. -/
def failRepos : Repos where
  usersIdentify := fun _ => Except.error (Err.other 1)
  thingsRetrieveByKey := fun _ => Except.error Err.notFound
  channelsHasThing := fun _ _ => Except.error Err.notFound
  channelsDisconnect := fun _ _ _ => some Err.notFound
  thingsRemove := fun _ _ => some Err.notFound
  channelsRemove := fun _ _ => some Err.notFound

/-- Collaborators where the operator token is valid but every repository
call fails. -/
def authOnlyRepos : Repos :=
  { failRepos with usersIdentify := fun _ => Except.ok "owner" }

/-- A populated collaborator set: thing "t1" has key "k1" and is connected
to channel "c1". -/
def demoRepos : Repos where
  usersIdentify := fun _ => Except.ok "owner"
  thingsRetrieveByKey := fun k =>
    if k = "k1" then Except.ok "t1" else Except.error Err.notFound
  channelsHasThing := fun c k =>
    if c = "c1" && k = "k1" then Except.ok "t1" else Except.error Err.notFound
  channelsDisconnect := fun _ _ _ => none
  thingsRemove := fun _ _ => none
  channelsRemove := fun _ _ => none

/-! ### Cache lemmas -/

theorem ThingCache.ID_Save (c : ThingCache) (key id k : String) :
    (c.Save key id).ID k = if key = k then some id else c.ID k := by
  by_cases h : key = k <;>
    simp [ThingCache.Save, ThingCache.ID, List.find?_cons, h]

theorem ChannelCache.HasThing_Connect (cc : ChannelCache) (chan thing c d : String) :
    (cc.Connect chan thing).HasThing c d = true ↔
      (c = chan ∧ d = thing) ∨ cc.HasThing c d = true := by
  simp [ChannelCache.Connect, ChannelCache.HasThing, List.contains_cons,
    Prod.ext_iff]

theorem ChannelCache.HasThing_Connect_self (cc : ChannelCache) (chan thing : String) :
    (cc.Connect chan thing).HasThing chan thing = true := by
  simp [ChannelCache.Connect, ChannelCache.HasThing, List.contains_cons]

theorem ChannelCache.HasThing_Disconnect_self (cc : ChannelCache) (chan thing : String) :
    (cc.Disconnect chan thing).HasThing chan thing = false := by
  simp only [ChannelCache.Disconnect, ChannelCache.HasThing]
  rw [Bool.eq_false_iff]
  intro h
  have hmem := List.mem_filter.mp (List.elem_iff.mp h)
  simp at hmem

theorem ChannelCache.HasThing_Remove (cc : ChannelCache) (chan t : String) :
    (cc.Remove chan).HasThing chan t = false := by
  simp only [ChannelCache.Remove, ChannelCache.HasThing]
  rw [Bool.eq_false_iff]
  intro h
  have hmem := List.mem_filter.mp (List.elem_iff.mp h)
  simp at hmem

theorem ThingCache.ID_Remove (c : ThingCache) (id k : String) :
    (c.Remove id).ID k ≠ some id := by
  intro h
  simp only [ThingCache.Remove, ThingCache.ID, Option.map_eq_some'] at h
  obtain ⟨p, hfind, hp2⟩ := h
  have hmem := List.mem_filter.mp (List.mem_of_find?_eq_some hfind)
  rw [hp2] at hmem
  simp at hmem

/-! ### Shared read-path lemmas -/

/-- The fully-warm fast path of `CanAccess`: with both caches positive, it
returns the cached thing ID, leaves the state unchanged and makes no
repository call. -/
theorem canAccess_fast (r : Repos) (s : ServiceState) (chanID key id : String)
    (h1 : s.thingCache.ID key = some id)
    (h2 : s.channelCache.HasThing chanID id = true) :
    CanAccess r s chanID key = ⟨Except.ok id, s, []⟩ := by
  simp [CanAccess, hasThing, h1, h2]

/-- The helper `hasThing` succeeds exactly when both caches answer positively. -/
theorem hasThing_ok_iff (s : ServiceState) (chanID key id : String) :
    hasThing s chanID key = Except.ok id ↔
      s.thingCache.ID key = some id ∧ s.channelCache.HasThing chanID id = true := by
  unfold hasThing
  cases hid : s.thingCache.ID key with
  | none => simp
  | some d =>
    by_cases hcon : s.channelCache.HasThing chanID d
    · simp only [hcon, if_true]
      constructor
      · intro h
        cases h
        exact ⟨rfl, hcon⟩
      · rintro ⟨h1, _⟩
        cases h1
        rfl
    · simp only [Bool.not_eq_true] at hcon
      simp only [hcon, Bool.false_eq_true, if_false]
      constructor
      · intro h
        exact absurd h (by simp)
      · rintro ⟨h1, h2⟩
        cases h1
        rw [hcon] at h2
        exact absurd h2 (by simp)

/-- A successful `CanAccess` leaves both caches positive for its inputs in
the resulting state. -/
theorem canAccess_ok_warm (r : Repos) (s : ServiceState) (chanID key id : String)
    (h : (CanAccess r s chanID key).result = Except.ok id) :
    (CanAccess r s chanID key).state.thingCache.ID key = some id ∧
    (CanAccess r s chanID key).state.channelCache.HasThing chanID id = true := by
  unfold CanAccess at h ⊢
  cases hh : hasThing s chanID key with
  | ok tid =>
    rw [hh] at h
    have htid : tid = id := by simpa using h
    subst htid
    exact (hasThing_ok_iff s chanID key tid).mp hh
  | error e0 =>
    rw [hh] at h
    cases hr : r.channelsHasThing chanID key with
    | error e1 =>
      rw [hr] at h
      exact absurd h (by simp)
    | ok tid =>
      rw [hr] at h
      have htid : tid = id := by simpa using h
      subst htid
      constructor
      · show (s.thingCache.Save key tid).ID key = some tid
        rw [ThingCache.ID_Save]
        simp
      · exact ChannelCache.HasThing_Connect_self s.channelCache chanID tid

/-! ### Claims -/

/-- C3: if the thing cache resolves the key and the membership cache
reports the pair connected, `CanAccess` returns that thing ID with zero
repository calls and no state change (fully-warm fast path). -/
theorem canAccess_fast_path (r : Repos) (s : ServiceState) (chanID key id : String)
    (h1 : s.thingCache.ID key = some id)
    (h2 : s.channelCache.HasThing chanID id = true) :
    CanAccess r s chanID key = ⟨Except.ok id, s, []⟩ :=
  canAccess_fast r s chanID key id h1 h2

/-- Witness for C3 at a concrete warm state. -/
theorem canAccess_fast_path_witness :
    CanAccess failRepos ⟨⟨[("k1", "t1")]⟩, ⟨[("c1", "t1")]⟩⟩ "c1" "k1"
      = ⟨Except.ok "t1", ⟨⟨[("k1", "t1")]⟩, ⟨[("c1", "t1")]⟩⟩, []⟩ :=
  canAccess_fast_path failRepos ⟨⟨[("k1", "t1")]⟩, ⟨[("c1", "t1")]⟩⟩ "c1" "k1" "t1"
    (by simp [ThingCache.ID]) (by simp [ChannelCache.HasThing])

/-- C1: `CanAccess` denies only when the repository membership check
`channels.HasThing(chanID, key)` was invoked in the same call and returned
an error, in which case the surfaced error is `ErrUnauthorizedAccess`; and
any non-positive cache outcome (`hasThing` error) always falls through to
that repository check rather than producing a denial by itself. -/
theorem canAccess_deny_only_after_repo (r : Repos) (s : ServiceState) (chanID key : String) :
    (∀ e, (CanAccess r s chanID key).result = Except.error e →
      e = Err.unauthorizedAccess ∧
      (∃ e1, r.channelsHasThing chanID key = Except.error e1) ∧
      RepoCall.channelsHasThing chanID key ∈ (CanAccess r s chanID key).calls) ∧
    (∀ e0, hasThing s chanID key = Except.error e0 →
      RepoCall.channelsHasThing chanID key ∈ (CanAccess r s chanID key).calls) := by
  constructor
  · intro e h
    unfold CanAccess at h ⊢
    cases hh : hasThing s chanID key with
    | ok tid => rw [hh] at h; exact absurd h (by simp)
    | error e0 =>
      rw [hh] at h
      cases hr : r.channelsHasThing chanID key with
      | error e1 =>
        rw [hr] at h
        simp at h
        exact ⟨h.symm, ⟨e1, rfl⟩, by simp [hh, hr]⟩
      | ok tid => rw [hr] at h; exact absurd h (by simp)
  · intro e0 h
    unfold CanAccess
    rw [h]
    cases hr : r.channelsHasThing chanID key <;> simp

/-- Witness for C1 at a concrete denied call. -/
theorem canAccess_deny_only_after_repo_witness :
    (Err.unauthorizedAccess = Err.unauthorizedAccess ∧
      (∃ e1, failRepos.channelsHasThing "c1" "k1" = Except.error e1) ∧
      RepoCall.channelsHasThing "c1" "k1" ∈ (CanAccess failRepos emptyState "c1" "k1").calls) ∧
    RepoCall.channelsHasThing "c1" "k1" ∈ (CanAccess failRepos emptyState "c1" "k1").calls :=
  ⟨(canAccess_deny_only_after_repo failRepos emptyState "c1" "k1").1
      Err.unauthorizedAccess rfl,
    (canAccess_deny_only_after_repo failRepos emptyState "c1" "k1").2
      Err.notFound rfl⟩

/-- C2: `Identify` returns a thing-cache hit immediately with no
repository call; on a miss it queries the thing repository by key, fails
closed with `ErrUnauthorizedAccess` on a repository error, and on success
saves (key, id) into the thing cache and returns the id. -/
theorem identify_spec (r : Repos) (s : ServiceState) (key : String) :
    (∀ id, s.thingCache.ID key = some id →
      Identify r s key = ⟨Except.ok id, s, []⟩) ∧
    (s.thingCache.ID key = none →
      (∀ e, r.thingsRetrieveByKey key = Except.error e →
        Identify r s key
          = ⟨Except.error Err.unauthorizedAccess, s, [RepoCall.thingsRetrieveByKey key]⟩) ∧
      (∀ id, r.thingsRetrieveByKey key = Except.ok id →
        Identify r s key
          = ⟨Except.ok id, ⟨s.thingCache.Save key id, s.channelCache⟩,
              [RepoCall.thingsRetrieveByKey key]⟩)) := by
  refine ⟨fun id h => by simp [Identify, h], fun hmiss => ⟨?_, ?_⟩⟩
  · intro e he
    simp [Identify, hmiss, he]
  · intro id hid
    simp [Identify, hmiss, hid]

/-- Witness for C2: the three branches at concrete inputs. -/
theorem identify_spec_witness :
    Identify demoRepos ⟨⟨[("k1", "t1")]⟩, ⟨[]⟩⟩ "k1"
      = ⟨Except.ok "t1", ⟨⟨[("k1", "t1")]⟩, ⟨[]⟩⟩, []⟩ ∧
    Identify demoRepos emptyState "k2"
      = ⟨Except.error Err.unauthorizedAccess, emptyState,
          [RepoCall.thingsRetrieveByKey "k2"]⟩ ∧
    Identify demoRepos emptyState "k1"
      = ⟨Except.ok "t1", ⟨ThingCache.Save ⟨[]⟩ "k1" "t1", ⟨[]⟩⟩,
          [RepoCall.thingsRetrieveByKey "k1"]⟩ := by
  refine ⟨(identify_spec demoRepos ⟨⟨[("k1", "t1")]⟩, ⟨[]⟩⟩ "k1").1 "t1"
      (by simp [ThingCache.ID]), ?_, ?_⟩
  · exact ((identify_spec demoRepos emptyState "k2").2 rfl).1 Err.notFound
      (by simp [demoRepos])
  · exact ((identify_spec demoRepos emptyState "k1").2 rfl).2 "t1"
      (by simp [demoRepos])

/-- C5: `ErrUnauthorizedAccess` is the only error value `CanAccess` and
`Identify` ever return, whatever the caches and repositories do
(fail-closed error normalization). -/
theorem read_path_fail_closed (r : Repos) (s : ServiceState) (chanID key : String) :
    (∀ e, (CanAccess r s chanID key).result = Except.error e →
      e = Err.unauthorizedAccess) ∧
    (∀ e, (Identify r s key).result = Except.error e →
      e = Err.unauthorizedAccess) := by
  constructor
  · intro e h
    unfold CanAccess at h
    cases hh : hasThing s chanID key with
    | ok tid =>
      rw [hh] at h
      exact absurd h (by simp)
    | error e0 =>
      rw [hh] at h
      cases hr : r.channelsHasThing chanID key with
      | error e1 =>
        rw [hr] at h
        simpa using h.symm
      | ok tid =>
        rw [hr] at h
        exact absurd h (by simp)
  · intro e h
    unfold Identify at h
    cases hid : s.thingCache.ID key with
    | some d =>
      rw [hid] at h
      exact absurd h (by simp)
    | none =>
      rw [hid] at h
      cases hr : r.thingsRetrieveByKey key with
      | error e1 =>
        rw [hr] at h
        simpa using h.symm
      | ok d =>
        rw [hr] at h
        exact absurd h (by simp)

/-- Witness for C5 at concrete failing calls. -/
theorem read_path_fail_closed_witness :
    Err.unauthorizedAccess = Err.unauthorizedAccess ∧
    Err.unauthorizedAccess = Err.unauthorizedAccess :=
  ⟨(read_path_fail_closed failRepos emptyState "c1" "k1").1
      Err.unauthorizedAccess rfl,
    (read_path_fail_closed failRepos emptyState "c1" "k1").2
      Err.unauthorizedAccess rfl⟩

/-- C10: whenever `CanAccess` or `Identify` returns an error, the call has
written nothing to either cache: the resulting state is exactly the
initial one. -/
theorem read_path_error_no_write (r : Repos) (s : ServiceState) (chanID key : String) :
    (∀ e, (CanAccess r s chanID key).result = Except.error e →
      (CanAccess r s chanID key).state = s) ∧
    (∀ e, (Identify r s key).result = Except.error e →
      (Identify r s key).state = s) := by
  constructor
  · intro e h
    unfold CanAccess at h ⊢
    cases hh : hasThing s chanID key with
    | ok tid =>
      rw [hh] at h
    | error e0 =>
      rw [hh] at h
      cases hr : r.channelsHasThing chanID key with
      | error e1 => rfl
      | ok tid =>
        rw [hr] at h
        exact absurd h (by simp)
  · intro e h
    unfold Identify at h ⊢
    cases hid : s.thingCache.ID key with
    | some d =>
      rw [hid] at h
    | none =>
      cases hr : r.thingsRetrieveByKey key with
      | error e1 => rfl
      | ok d =>
        rw [hid, hr] at h
        exact absurd h (by simp)

/-- Witness for C10 at concrete failing calls. -/
theorem read_path_error_no_write_witness :
    (CanAccess failRepos emptyState "c1" "k1").state = emptyState ∧
    (Identify failRepos emptyState "k1").state = emptyState :=
  ⟨(read_path_error_no_write failRepos emptyState "c1" "k1").1
      Err.unauthorizedAccess rfl,
    (read_path_error_no_write failRepos emptyState "c1" "k1").2
      Err.unauthorizedAccess rfl⟩

/-- C6: after one successful `CanAccess`, a second call with the same
channel and key succeeds with the same thing ID against any collaborator
set, including one whose every repository call fails, making zero
repository calls: the first call left both caches warm. -/
theorem canAccess_warm_cache_idempotent (r rdead : Repos) (s : ServiceState)
    (chanID key id : String)
    (h : (CanAccess r s chanID key).result = Except.ok id) :
    CanAccess rdead (CanAccess r s chanID key).state chanID key
      = ⟨Except.ok id, (CanAccess r s chanID key).state, []⟩ := by
  obtain ⟨hid, hcon⟩ := canAccess_ok_warm r s chanID key id h
  exact canAccess_fast rdead (CanAccess r s chanID key).state chanID key id hid hcon

/-- Witness for C6: cold start against the populated repository, then a
second call with every repository call failing. -/
theorem canAccess_warm_cache_idempotent_witness :
    CanAccess failRepos (CanAccess demoRepos emptyState "c1" "k1").state "c1" "k1"
      = ⟨Except.ok "t1", (CanAccess demoRepos emptyState "c1" "k1").state, []⟩ :=
  canAccess_warm_cache_idempotent demoRepos failRepos emptyState "c1" "k1" "t1"
    (by simp [CanAccess, hasThing, ThingCache.ID, emptyState, demoRepos])

/-- C7: once the membership entry (chanID, thingID) has been invalidated
via `channelCache.Disconnect`, `CanAccess` on the key of that thing fails
with `ErrUnauthorizedAccess` whenever every repository call fails, even if
the membership cache held a positive entry before the invalidation. -/
theorem canAccess_after_invalidation (r : Repos) (s : ServiceState)
    (chanID thingID key : String)
    (hkey : ∀ d, s.thingCache.ID key = some d → d = thingID)
    (hdead : ∀ c k id, r.channelsHasThing c k ≠ Except.ok id) :
    (CanAccess r ⟨s.thingCache, s.channelCache.Disconnect chanID thingID⟩
        chanID key).result = Except.error Err.unauthorizedAccess := by
  unfold CanAccess
  cases hh : hasThing ⟨s.thingCache, s.channelCache.Disconnect chanID thingID⟩ chanID key with
  | ok tid =>
    obtain ⟨hid, hcon⟩ :=
      (hasThing_ok_iff ⟨s.thingCache, s.channelCache.Disconnect chanID thingID⟩
        chanID key tid).mp hh
    have htid : tid = thingID := hkey tid hid
    subst htid
    rw [ChannelCache.HasThing_Disconnect_self] at hcon
    exact absurd hcon (by simp)
  | error e0 =>
    cases hr : r.channelsHasThing chanID key with
    | error e1 => rfl
    | ok tid => exact absurd hr (hdead chanID key tid)

/-- Witness for C7: a state whose membership cache held ("c1", "t1")
before the invalidation, with an unreachable repository. -/
theorem canAccess_after_invalidation_witness :
    (CanAccess failRepos
        ⟨⟨[("k1", "t1")]⟩, ChannelCache.Disconnect ⟨[("c1", "t1")]⟩ "c1" "t1"⟩
        "c1" "k1").result = Except.error Err.unauthorizedAccess :=
  canAccess_after_invalidation failRepos ⟨⟨[("k1", "t1")]⟩, ⟨[("c1", "t1")]⟩⟩
    "c1" "t1" "k1"
    (fun d hd => by
      have : some "t1" = some d := by simpa [ThingCache.ID] using hd
      exact (Option.some.inj this).symm)
    (fun c k id hck => by simp [failRepos] at hck)

/-- C9: the read path populates the caches only from same-call repository
confirmations: any thing-cache entry present after `Identify` or
`CanAccess` was either already present or is the (key, id) pair the
repository just confirmed, and any membership-cache entry present after
`CanAccess` was either already present or is the (chanID, id) pair the
repository just confirmed; `Identify` never touches the membership
cache. -/
theorem read_path_population_invariant (r : Repos) (s : ServiceState)
    (chanID key k i c d : String) :
    (Identify r s key).state.channelCache = s.channelCache ∧
    ((Identify r s key).state.thingCache.ID k = some i →
      s.thingCache.ID k = some i ∨
        (k = key ∧ r.thingsRetrieveByKey key = Except.ok i)) ∧
    ((CanAccess r s chanID key).state.thingCache.ID k = some i →
      s.thingCache.ID k = some i ∨
        (k = key ∧ r.channelsHasThing chanID key = Except.ok i)) ∧
    ((CanAccess r s chanID key).state.channelCache.HasThing c d = true →
      s.channelCache.HasThing c d = true ∨
        (c = chanID ∧ r.channelsHasThing chanID key = Except.ok d)) := by
  refine ⟨?_, ?_, ?_, ?_⟩
  · unfold Identify
    cases hid : s.thingCache.ID key with
    | some d0 => rfl
    | none =>
      cases hrk : r.thingsRetrieveByKey key with
      | error e => rfl
      | ok d0 => rfl
  · intro h
    unfold Identify at h
    cases hid : s.thingCache.ID key with
    | some d0 =>
      rw [hid] at h
      exact Or.inl h
    | none =>
      rw [hid] at h
      cases hrk : r.thingsRetrieveByKey key with
      | error e =>
        rw [hrk] at h
        exact Or.inl h
      | ok d0 =>
        rw [hrk] at h
        have h' : (s.thingCache.Save key d0).ID k = some i := h
        rw [ThingCache.ID_Save] at h'
        by_cases hk : key = k
        · rw [if_pos hk] at h'
          exact Or.inr ⟨hk.symm, congrArg Except.ok (Option.some.inj h')⟩
        · rw [if_neg hk] at h'
          exact Or.inl h'
  · intro h
    unfold CanAccess at h
    cases hh : hasThing s chanID key with
    | ok tid =>
      rw [hh] at h
      exact Or.inl h
    | error e0 =>
      rw [hh] at h
      cases hr : r.channelsHasThing chanID key with
      | error e1 =>
        rw [hr] at h
        exact Or.inl h
      | ok tid =>
        rw [hr] at h
        have h' : (s.thingCache.Save key tid).ID k = some i := h
        rw [ThingCache.ID_Save] at h'
        by_cases hk : key = k
        · rw [if_pos hk] at h'
          exact Or.inr ⟨hk.symm, congrArg Except.ok (Option.some.inj h')⟩
        · rw [if_neg hk] at h'
          exact Or.inl h'
  · intro h
    unfold CanAccess at h
    cases hh : hasThing s chanID key with
    | ok tid =>
      rw [hh] at h
      exact Or.inl h
    | error e0 =>
      rw [hh] at h
      cases hr : r.channelsHasThing chanID key with
      | error e1 =>
        rw [hr] at h
        exact Or.inl h
      | ok tid =>
        rw [hr] at h
        have h' : (s.channelCache.Connect chanID tid).HasThing c d = true := h
        rcases (ChannelCache.HasThing_Connect s.channelCache chanID tid c d).mp h' with
          hnew | hold
        · exact Or.inr ⟨hnew.1, congrArg Except.ok hnew.2.symm⟩
        · exact Or.inl hold

/-- Witness for C9: the population branches at concrete inputs. -/
theorem read_path_population_invariant_witness :
    (Identify demoRepos emptyState "k1").state.channelCache = emptyState.channelCache ∧
    (emptyState.thingCache.ID "k1" = some "t1" ∨
      ("k1" = "k1" ∧ demoRepos.thingsRetrieveByKey "k1" = Except.ok "t1")) ∧
    (emptyState.thingCache.ID "k1" = some "t1" ∨
      ("k1" = "k1" ∧ demoRepos.channelsHasThing "c1" "k1" = Except.ok "t1")) ∧
    (emptyState.channelCache.HasThing "c1" "t1" = true ∨
      ("c1" = "c1" ∧ demoRepos.channelsHasThing "c1" "k1" = Except.ok "t1")) := by
  obtain ⟨h1, h2, h3, h4⟩ :=
    read_path_population_invariant demoRepos emptyState "c1" "k1" "k1" "t1" "c1" "t1"
  refine ⟨h1, h2 ?_, h3 ?_, h4 ?_⟩
  · simp [Identify, emptyState, ThingCache.ID, demoRepos, ThingCache.Save]
  · simp [CanAccess, hasThing, emptyState, ThingCache.ID, demoRepos,
      ThingCache.Save]
  · simp [CanAccess, hasThing, emptyState, ThingCache.ID, ChannelCache.HasThing,
      demoRepos, ChannelCache.Connect]

/-- A read call never creates a thing-cache entry for a key the
repositories cannot resolve. -/
theorem applyRead_ID_none (r : Repos) (K : String)
    (hR : ∀ id, r.thingsRetrieveByKey K ≠ Except.ok id)
    (hC : ∀ c id, r.channelsHasThing c K ≠ Except.ok id)
    (s : ServiceState) (hs : s.thingCache.ID K = none) (op : ReadOp) :
    (applyRead r s op).thingCache.ID K = none := by
  cases op with
  | identify k =>
    show (Identify r s k).state.thingCache.ID K = none
    unfold Identify
    cases hid : s.thingCache.ID k with
    | some d => exact hs
    | none =>
      cases hrk : r.thingsRetrieveByKey k with
      | error e => exact hs
      | ok id =>
        have hkK : k ≠ K := fun hk => hR id (hk ▸ hrk)
        show (s.thingCache.Save k id).ID K = none
        rw [ThingCache.ID_Save, if_neg hkK]
        exact hs
  | canAccess c k =>
    show (CanAccess r s c k).state.thingCache.ID K = none
    unfold CanAccess
    cases hh : hasThing s c k with
    | ok tid => exact hs
    | error e0 =>
      cases hr : r.channelsHasThing c k with
      | error e1 => exact hs
      | ok tid =>
        have hkK : k ≠ K := fun hk => hC c tid (hk ▸ hr)
        show (s.thingCache.Save k tid).ID K = none
        rw [ThingCache.ID_Save, if_neg hkK]
        exact hs

/-- Running any sequence of read calls preserves the absence of a
thing-cache entry for a key the repositories cannot resolve. -/
theorem runReads_ID_none (r : Repos) (K : String)
    (hR : ∀ id, r.thingsRetrieveByKey K ≠ Except.ok id)
    (hC : ∀ c id, r.channelsHasThing c K ≠ Except.ok id)
    (ops : List ReadOp) (s : ServiceState)
    (hs : s.thingCache.ID K = none) :
    (runReads r s ops).thingCache.ID K = none := by
  induction ops generalizing s with
  | nil => exact hs
  | cons op ops ih => exact ih (applyRead r s op) (applyRead_ID_none r K hR hC s hs op)

/-- C4 counterexample: a key absent from every repository is still
resolved successfully by `Identify` when the thing cache holds a stale
entry for it, so the result is not independent of the cache contents. -/
theorem identify_absent_key_cx :
    failRepos.thingsRetrieveByKey "k1" = Except.error Err.notFound ∧
    failRepos.channelsHasThing "c1" "k1" = Except.error Err.notFound ∧
    (Identify failRepos ⟨⟨[("k1", "t1")]⟩, ⟨[]⟩⟩ "k1").result = Except.ok "t1" ∧
    (Identify failRepos ⟨⟨[("k1", "t1")]⟩, ⟨[]⟩⟩ "k1").result
      ≠ Except.error Err.unauthorizedAccess := by
  refine ⟨rfl, rfl, rfl, ?_⟩
  intro h
  have h1 : (Identify failRepos ⟨⟨[("k1", "t1")]⟩, ⟨[]⟩⟩ "k1").result
      = Except.ok "t1" := rfl
  rw [h1] at h
  exact Except.noConfusion h

/-- C4 (amended): for a key no repository can resolve, `Identify` fails
with `ErrUnauthorizedAccess` from the cold state and from any state warmed
from cold by a sequence of read calls: such warming never creates a
thing-cache entry for that key, so cold and warm caches produce identical
results for it. -/
theorem identify_absent_key (r : Repos) (K : String)
    (hR : ∀ id, r.thingsRetrieveByKey K ≠ Except.ok id)
    (hC : ∀ c id, r.channelsHasThing c K ≠ Except.ok id)
    (ops : List ReadOp) :
    (runReads r emptyState ops).thingCache.ID K = none ∧
    (Identify r (runReads r emptyState ops) K).result
      = Except.error Err.unauthorizedAccess ∧
    (Identify r (runReads r emptyState ops) K).result
      = (Identify r emptyState K).result := by
  have hnone : (runReads r emptyState ops).thingCache.ID K = none :=
    runReads_ID_none r K hR hC ops emptyState rfl
  have hempty : emptyState.thingCache.ID K = none := rfl
  cases hrk : r.thingsRetrieveByKey K with
  | ok id => exact absurd hrk (hR id)
  | error e =>
    refine ⟨hnone, ?_, ?_⟩
    · unfold Identify
      rw [hnone, hrk]
    · unfold Identify
      rw [hnone, hempty, hrk]

/-- Witness for C4 (amended) with an unreachable repository and a warm-up
sequence of two read calls. -/
theorem identify_absent_key_witness :
    (runReads failRepos emptyState
        [ReadOp.identify "k2", ReadOp.canAccess "c1" "k1"]).thingCache.ID "k1" = none ∧
    (Identify failRepos
        (runReads failRepos emptyState
          [ReadOp.identify "k2", ReadOp.canAccess "c1" "k1"]) "k1").result
      = Except.error Err.unauthorizedAccess ∧
    (Identify failRepos
        (runReads failRepos emptyState
          [ReadOp.identify "k2", ReadOp.canAccess "c1" "k1"]) "k1").result
      = (Identify failRepos emptyState "k1").result :=
  identify_absent_key failRepos "k1"
    (fun id h => by simp [failRepos] at h)
    (fun c id h => by simp [failRepos] at h)
    [ReadOp.identify "k2", ReadOp.canAccess "c1" "k1"]

/-- C8 counterexample: with a valid operator token but a repository whose
disconnect fails, `Disconnect` still erases the membership cache entry, so
cache invalidation is not performed only after a successful repository
mutation. -/
theorem mutation_invalidation_cx :
    (Disconnect authOnlyRepos ⟨⟨[]⟩, ⟨[("c1", "t1")]⟩⟩ "tok" "c1" "t1").result
      = some Err.notFound ∧
    ChannelCache.HasThing ⟨[("c1", "t1")]⟩ "c1" "t1" = true ∧
    (Disconnect authOnlyRepos ⟨⟨[]⟩, ⟨[("c1", "t1")]⟩⟩ "tok" "c1"
        "t1").state.channelCache.HasThing "c1" "t1" = false := by
  exact ⟨rfl, rfl, rfl⟩

/-- C8 (amended): after successful operator authentication, each mutation
path invalidates its cache entry before the repository mutation in the
call order, does so regardless of the repository mutation's outcome, and
returns the repository mutation's error value: `Disconnect` removes the
(chanID, thingID) membership entry, `RemoveThing` removes the thing's
key-cache entries by thing ID, and `RemoveChannel` removes all membership
entries of the channel. -/
theorem mutation_invalidation (r : Repos) (s : ServiceState)
    (token chanID thingID id owner : String)
    (hauth : r.usersIdentify token = Except.ok owner) :
    (Disconnect r s token chanID thingID).trace
      = [Event.cacheDisconnect chanID thingID,
          Event.repoDisconnect owner chanID thingID] ∧
    (Disconnect r s token chanID thingID).state.channelCache.HasThing
      chanID thingID = false ∧
    (Disconnect r s token chanID thingID).result
      = r.channelsDisconnect owner chanID thingID ∧
    (RemoveThing r s token id).trace
      = [Event.thingCacheRemove id, Event.repoRemoveThing owner id] ∧
    (∀ k, (RemoveThing r s token id).state.thingCache.ID k ≠ some id) ∧
    (RemoveThing r s token id).result = r.thingsRemove owner id ∧
    (RemoveChannel r s token id).trace
      = [Event.channelCacheRemove id, Event.repoRemoveChannel owner id] ∧
    (∀ t, (RemoveChannel r s token id).state.channelCache.HasThing id t = false) ∧
    (RemoveChannel r s token id).result = r.channelsRemove owner id := by
  unfold Disconnect RemoveThing RemoveChannel
  rw [hauth]
  exact ⟨rfl, ChannelCache.HasThing_Disconnect_self _ _ _, rfl,
    rfl, fun k => ThingCache.ID_Remove _ _ _, rfl,
    rfl, fun t => ChannelCache.HasThing_Remove _ _ _, rfl⟩

/-- Witness for C8 (amended) with a valid token over a repository whose
mutations all fail. -/
theorem mutation_invalidation_witness :
    (Disconnect authOnlyRepos emptyState "tok" "c1" "t1").trace
      = [Event.cacheDisconnect "c1" "t1", Event.repoDisconnect "owner" "c1" "t1"] ∧
    (Disconnect authOnlyRepos emptyState "tok" "c1" "t1").state.channelCache.HasThing
      "c1" "t1" = false ∧
    (Disconnect authOnlyRepos emptyState "tok" "c1" "t1").result
      = authOnlyRepos.channelsDisconnect "owner" "c1" "t1" ∧
    (RemoveThing authOnlyRepos emptyState "tok" "t1").trace
      = [Event.thingCacheRemove "t1", Event.repoRemoveThing "owner" "t1"] ∧
    (∀ k, (RemoveThing authOnlyRepos emptyState "tok" "t1").state.thingCache.ID k
      ≠ some "t1") ∧
    (RemoveThing authOnlyRepos emptyState "tok" "t1").result
      = authOnlyRepos.thingsRemove "owner" "t1" ∧
    (RemoveChannel authOnlyRepos emptyState "tok" "t1").trace
      = [Event.channelCacheRemove "t1", Event.repoRemoveChannel "owner" "t1"] ∧
    (∀ t, (RemoveChannel authOnlyRepos emptyState "tok" "t1").state.channelCache.HasThing
      "t1" t = false) ∧
    (RemoveChannel authOnlyRepos emptyState "tok" "t1").result
      = authOnlyRepos.channelsRemove "owner" "t1" :=
  mutation_invalidation authOnlyRepos emptyState "tok" "c1" "t1" "t1" "owner" rfl

end Things
